import Mathlib

/-!
Verification of the mesen image-annotation core: a shallow embedding of the
viewport transform (useZoomPan), the drawing session (useDrawing), the
two-finger pinch/pan classifier and double-tap detector (useTouch revisions),
and the thickness policy (constants/editor), together with proofs of the
specification's claims about them.

Conventions of the embedding:
* JavaScript numbers are modelled as rationals (ℚ).
* A comparison `Math.sqrt u < t` (or `>`), with `u ≥ 0` a sum of squares,
  is embedded in the equivalent square form `0 < t ∧ u < t^2`
  (resp. `u > t^2` for `sqrt u > t` with `t ≥ 0`), so that every
  definition stays executable and decidable.  The monotonicity of `sqrt`
  on nonnegatives makes the two forms equivalent over the reals.
* React state updates are modelled as pure state-passing functions.
-/

namespace Mesen

/-- A 2-D point, either in screen (client) space or in image/canvas space. -/
@[ext]
structure Pt where
  x : ℚ
  y : ℚ
deriving DecidableEq, Repr

/-- Squared Euclidean distance between two points. -/
def dist2 (p q : Pt) : ℚ :=
  (p.x - q.x) ^ 2 + (p.y - q.y) ^ 2

theorem dist2_nonneg (p q : Pt) : 0 ≤ dist2 p q := by
  have hx : (0:ℚ) ≤ (p.x - q.x) ^ 2 := sq_nonneg _
  have hy : (0:ℚ) ≤ (p.y - q.y) ^ 2 := sq_nonneg _
  simpa [dist2] using add_nonneg hx hy

/-! ## ViewportTransform: src/hooks/useZoomPan.ts -/

namespace Viewport

/-- MAX_SCALE from src/constants/editor.ts. -/
def MAX_SCALE : ℚ := 5

/-- MIN_SCALE from src/constants/editor.ts (first revision of the constants;
the later revision derives the lower bound from the fit-to-container scale,
which the zoom operations below take as the parameter minS). -/
def MIN_SCALE : ℚ := 1/10

/-- The scale/offset pair owned by useZoomPan: screen = image * scale + position
(up to the container rectangle origin). -/
structure State where
  scale : ℚ
  position : Pt
deriving DecidableEq, Repr

/-- getCanvasCoordinates (useZoomPan.ts lines 24-31): client point to image
space.  `r` is the container bounding rectangle origin (rect.left, rect.top). -/
def getCanvasCoordinates (r : Pt) (s : State) (client : Pt) : Pt :=
  { x := (client.x - r.x - s.position.x) / s.scale
  , y := (client.y - r.y - s.position.y) / s.scale }

/-- Clamp as written in the source: Math.max(minS, Math.min(maxS, v)). -/
def clampScale (minS maxS v : ℚ) : ℚ :=
  max minS (min maxS v)

/-- handlePinchZoom (useZoomPan.ts lines 83-108): clamp the target scale and
solve for the offset that keeps the image point under the pinch center fixed. -/
def handlePinchZoom (minS maxS : ℚ) (r : Pt) (s : State)
    (newScale : ℚ) (center : Pt) : State :=
  let clampedScale := clampScale minS maxS newScale
  let pinchX := center.x - r.x
  let pinchY := center.y - r.y
  let canvasX := (pinchX - s.position.x) / s.scale
  let canvasY := (pinchY - s.position.y) / s.scale
  { scale := clampedScale
  , position := { x := pinchX - canvasX * clampedScale
                , y := pinchY - canvasY * clampedScale } }

/-- The wheel scale factor (useZoomPan.ts lines 55-57): zoom speed is
min(|delta| * 0.001, 0.1); shrink on positive delta, grow on negative. -/
def wheelScaleFactor (delta : ℚ) : ℚ :=
  let zoomSpeed := min (|delta| * (1/1000)) (1/10)
  if delta > 0 then 1 - zoomSpeed else 1 + zoomSpeed

/-- handleWheel (useZoomPan.ts lines 52-81): target scale is
currentScale * wheelScaleFactor delta, then the same clamp-and-solve as
handlePinchZoom. -/
def handleWheel (minS maxS : ℚ) (r : Pt) (s : State)
    (delta : ℚ) (client : Pt) : State :=
  let scaleFactor := wheelScaleFactor delta
  let mouseX := client.x - r.x
  let mouseY := client.y - r.y
  let newScale := clampScale minS maxS (s.scale * scaleFactor)
  let canvasX := (mouseX - s.position.x) / s.scale
  let canvasY := (mouseY - s.position.y) / s.scale
  { scale := newScale
  , position := { x := mouseX - canvasX * newScale
                , y := mouseY - canvasY * newScale } }

/-- Full hook state for pan/zoom sequencing: scale, position, and the
exclusive-drag bookkeeping of startDragging/drag/stopDragging. -/
structure FullState where
  scale : ℚ
  position : Pt
  isDragging : Bool
  dragStart : Pt
deriving DecidableEq, Repr

def FullState.core (s : FullState) : State :=
  { scale := s.scale, position := s.position }

/-- The public pan/zoom operations of useZoomPan. -/
inductive Op where
  | startDragging (client : Pt)
  | drag (client : Pt)
  | stopDragging
  | wheel (delta : ℚ) (client : Pt)
  | pinch (newScale : ℚ) (center : Pt)
deriving DecidableEq, Repr

/-- One operation applied to the full hook state, faithful to the source:
startDragging records client - position; drag (only while dragging) sets
position := client - dragStart; wheel and pinch update scale and position
through the zoom-about-point solver with the constant clamp bounds. -/
def applyOp (r : Pt) : Op → FullState → FullState
  | .startDragging client, s =>
      { s with dragStart := { x := client.x - s.position.x
                            , y := client.y - s.position.y }
             , isDragging := true }
  | .drag client, s =>
      if s.isDragging then
        { s with position := { x := client.x - s.dragStart.x
                             , y := client.y - s.dragStart.y } }
      else s
  | .stopDragging, s => { s with isDragging := false }
  | .wheel delta client, s =>
      let core := handleWheel MIN_SCALE MAX_SCALE r s.core delta client
      { s with scale := core.scale, position := core.position }
  | .pinch newScale center, s =>
      let core := handlePinchZoom MIN_SCALE MAX_SCALE r s.core newScale center
      { s with scale := core.scale, position := core.position }

/-- Initial hook state: useState(1) for scale, origin position, not dragging. -/
def initState : FullState :=
  { scale := 1, position := { x := 0, y := 0 }
  , isDragging := false, dragStart := { x := 0, y := 0 } }

/-- Run a sequence of pan/zoom operations. -/
def runOps (r : Pt) (ops : List Op) (s : FullState) : FullState :=
  ops.foldl (fun st op => applyOp r op st) s

/-- The clamp result is positive whenever the lower bound is. -/
theorem clampScale_pos (minS maxS v : ℚ) (h : 0 < minS) :
    0 < clampScale minS maxS v :=
  lt_of_lt_of_le h (le_max_left _ _)

/-- handlePinchZoom: the new scale is the clamp of the target, and the image
point under the pinch center is unchanged. -/
theorem handlePinchZoom_spec (minS maxS : ℚ) (r : Pt) (s : State)
    (target : ℚ) (c : Pt) (hmin : 0 < minS) (hs : s.scale ≠ 0) :
    (handlePinchZoom minS maxS r s target c).scale = clampScale minS maxS target ∧
    getCanvasCoordinates r (handlePinchZoom minS maxS r s target c) c =
      getCanvasCoordinates r s c := by
  have hcl : clampScale minS maxS target ≠ 0 :=
    ne_of_gt (clampScale_pos minS maxS target hmin)
  refine ⟨rfl, ?_⟩
  unfold handlePinchZoom getCanvasCoordinates
  simp only
  ext
  · field_simp
    ring
  · field_simp
    ring

/-- handleWheel: the new scale is the clamp of currentScale * wheelScaleFactor,
and the image point under the mouse is unchanged. -/
theorem handleWheel_spec (minS maxS : ℚ) (r : Pt) (s : State)
    (delta : ℚ) (c : Pt) (hmin : 0 < minS) (hs : s.scale ≠ 0) :
    (handleWheel minS maxS r s delta c).scale =
      clampScale minS maxS (s.scale * wheelScaleFactor delta) ∧
    getCanvasCoordinates r (handleWheel minS maxS r s delta c) c =
      getCanvasCoordinates r s c := by
  have hcl : clampScale minS maxS (s.scale * wheelScaleFactor delta) ≠ 0 :=
    ne_of_gt (clampScale_pos minS maxS _ hmin)
  refine ⟨rfl, ?_⟩
  unfold handleWheel getCanvasCoordinates
  simp only
  ext
  · field_simp
    ring
  · field_simp
    ring

end Viewport

end Mesen

namespace Mesen
namespace Viewport

/-- C1: for every viewport state and every zoom-about-point operation (pinch
zoom with a target scale, or wheel zoom whose target scale is
currentScale * wheelScaleFactor delta) at a screen point: the resulting scale
is the target clamped to [minScale, maxScale], and the image-space point under
that screen point is the same before and after the zoom. -/
theorem C1_zoom_about_point (minS maxS : ℚ) (r : Pt) (s : State)
    (target delta : ℚ) (c : Pt) (hmin : 0 < minS) (hs : s.scale ≠ 0) :
    ((handlePinchZoom minS maxS r s target c).scale =
        clampScale minS maxS target ∧
      getCanvasCoordinates r (handlePinchZoom minS maxS r s target c) c =
        getCanvasCoordinates r s c) ∧
    ((handleWheel minS maxS r s delta c).scale =
        clampScale minS maxS (s.scale * wheelScaleFactor delta) ∧
      getCanvasCoordinates r (handleWheel minS maxS r s delta c) c =
        getCanvasCoordinates r s c) :=
  ⟨handlePinchZoom_spec minS maxS r s target c hmin hs,
   handleWheel_spec minS maxS r s delta c hmin hs⟩

/-- Witness for C1 at concrete inputs: minScale 1/10, maxScale 5, rect origin
(2,3), state scale 2 and offset (7,-4), pinch target 3, wheel delta 120,
screen point (100,50). -/
theorem C1_zoom_about_point_witness :
    (0:ℚ) < 1/10 ∧
    (State.mk 2 (Pt.mk 7 (-4))).scale ≠ 0 ∧
    (((handlePinchZoom (1/10) 5 (Pt.mk 2 3) (State.mk 2 (Pt.mk 7 (-4)))
          3 (Pt.mk 100 50)).scale = clampScale (1/10) 5 3 ∧
        getCanvasCoordinates (Pt.mk 2 3)
            (handlePinchZoom (1/10) 5 (Pt.mk 2 3) (State.mk 2 (Pt.mk 7 (-4)))
              3 (Pt.mk 100 50)) (Pt.mk 100 50) =
          getCanvasCoordinates (Pt.mk 2 3) (State.mk 2 (Pt.mk 7 (-4)))
            (Pt.mk 100 50)) ∧
      ((handleWheel (1/10) 5 (Pt.mk 2 3) (State.mk 2 (Pt.mk 7 (-4)))
          120 (Pt.mk 100 50)).scale =
          clampScale (1/10) 5
            ((State.mk 2 (Pt.mk 7 (-4))).scale * wheelScaleFactor 120) ∧
        getCanvasCoordinates (Pt.mk 2 3)
            (handleWheel (1/10) 5 (Pt.mk 2 3) (State.mk 2 (Pt.mk 7 (-4)))
              120 (Pt.mk 100 50)) (Pt.mk 100 50) =
          getCanvasCoordinates (Pt.mk 2 3) (State.mk 2 (Pt.mk 7 (-4)))
            (Pt.mk 100 50))) :=
  ⟨by norm_num, by decide,
   C1_zoom_about_point (1/10) 5 (Pt.mk 2 3) (State.mk 2 (Pt.mk 7 (-4)))
     3 120 (Pt.mk 100 50) (by norm_num) (by decide)⟩

/-- Every operation preserves a nonzero scale: wheel and pinch clamp the scale
into [MIN_SCALE, MAX_SCALE] with MIN_SCALE = 1/10 > 0, the drag operations do
not touch the scale. -/
theorem applyOp_scale_ne (r : Pt) (op : Op) (s : FullState)
    (h : s.scale ≠ 0) : (applyOp r op s).scale ≠ 0 := by
  cases op with
  | startDragging client => simpa [applyOp] using h
  | drag client =>
      by_cases hd : s.isDragging <;> simp [applyOp, hd, h]
  | stopDragging => simpa [applyOp] using h
  | wheel delta client =>
      have : (0:ℚ) < MIN_SCALE := by norm_num [MIN_SCALE]
      exact ne_of_gt (by
        simpa [applyOp, handleWheel] using
          clampScale_pos MIN_SCALE MAX_SCALE _ this)
  | pinch newScale center =>
      have : (0:ℚ) < MIN_SCALE := by norm_num [MIN_SCALE]
      exact ne_of_gt (by
        simpa [applyOp, handlePinchZoom] using
          clampScale_pos MIN_SCALE MAX_SCALE _ this)

/-- Any sequence of pan/zoom operations keeps the scale nonzero. -/
theorem runOps_scale_ne (r : Pt) (ops : List Op) (s : FullState)
    (h : s.scale ≠ 0) : (runOps r ops s).scale ≠ 0 := by
  induction ops generalizing s with
  | nil => simpa [runOps] using h
  | cons op rest ih =>
      have h1 := applyOp_scale_ne r op s h
      simpa [runOps, List.foldl_cons] using ih (applyOp r op s) h1

/-- C2: from any viewport state with nonzero scale, after any sequence of pan
and zoom operations the scale is still nonzero, and the coordinate mapping
round-trips exactly: sending the image point p to screen space by
p * scale + offset (plus the container origin) and back through
getCanvasCoordinates recovers p. -/
theorem C2_round_trip (r : Pt) (ops : List Op) (s0 : FullState)
    (h0 : s0.scale ≠ 0) (p : Pt) :
    (runOps r ops s0).scale ≠ 0 ∧
    getCanvasCoordinates r (runOps r ops s0).core
      (Pt.mk (p.x * (runOps r ops s0).scale + (runOps r ops s0).position.x + r.x)
             (p.y * (runOps r ops s0).scale + (runOps r ops s0).position.y + r.y))
      = p := by
  have hs := runOps_scale_ne r ops s0 h0
  refine ⟨hs, ?_⟩
  unfold getCanvasCoordinates FullState.core
  ext
  · simp only
    field_simp
  · simp only
    field_simp

/-- Witness for C2 at a concrete run: wheel zoom, pinch zoom, then a drag,
starting from the initial state (scale 1), round-tripping the image point
(10, 20). -/
theorem C2_round_trip_witness :
    (Viewport.initState.scale ≠ 0) ∧
    ((runOps (Pt.mk 1 2)
        [Op.wheel 120 (Pt.mk 5 5), Op.pinch 3 (Pt.mk 40 30),
         Op.startDragging (Pt.mk 8 8), Op.drag (Pt.mk 20 25)]
        initState).scale ≠ 0 ∧
      getCanvasCoordinates (Pt.mk 1 2)
        (runOps (Pt.mk 1 2)
          [Op.wheel 120 (Pt.mk 5 5), Op.pinch 3 (Pt.mk 40 30),
           Op.startDragging (Pt.mk 8 8), Op.drag (Pt.mk 20 25)]
          initState).core
        (Pt.mk ((10:ℚ) * (runOps (Pt.mk 1 2)
              [Op.wheel 120 (Pt.mk 5 5), Op.pinch 3 (Pt.mk 40 30),
               Op.startDragging (Pt.mk 8 8), Op.drag (Pt.mk 20 25)]
              initState).scale +
            (runOps (Pt.mk 1 2)
              [Op.wheel 120 (Pt.mk 5 5), Op.pinch 3 (Pt.mk 40 30),
               Op.startDragging (Pt.mk 8 8), Op.drag (Pt.mk 20 25)]
              initState).position.x + 1)
          ((20:ℚ) * (runOps (Pt.mk 1 2)
              [Op.wheel 120 (Pt.mk 5 5), Op.pinch 3 (Pt.mk 40 30),
               Op.startDragging (Pt.mk 8 8), Op.drag (Pt.mk 20 25)]
              initState).scale +
            (runOps (Pt.mk 1 2)
              [Op.wheel 120 (Pt.mk 5 5), Op.pinch 3 (Pt.mk 40 30),
               Op.startDragging (Pt.mk 8 8), Op.drag (Pt.mk 20 25)]
              initState).position.y + 2))
        = Pt.mk 10 20) :=
  ⟨by decide,
   C2_round_trip (Pt.mk 1 2)
     [Op.wheel 120 (Pt.mk 5 5), Op.pinch 3 (Pt.mk 40 30),
      Op.startDragging (Pt.mk 8 8), Op.drag (Pt.mk 20 25)]
     initState (by decide) (Pt.mk 10 20)⟩

end Viewport
end Mesen

namespace Mesen

/-! ## DrawingSession: src/hooks/useDrawing.ts and src/constants/editor.ts -/

/-- A committed censoring stroke in image space (`Line` in types/editor).
The source field `end` is a Lean keyword and is rendered here as `stop`. -/
structure Line where
  start : Pt
  stop : Pt
  thickness : ℚ
deriving DecidableEq, Repr

namespace Drawing

/-- THICKNESS_RATIOS from src/constants/editor.ts (second revision). -/
def thicknessRatios : List ℚ := [2/1000, 5/1000, 1/100, 2/100, 5/100, 1/10]

/-- JavaScript Math.round: round half toward positive infinity. -/
def jsRound (q : ℚ) : ℤ := ⌊q + 1/2⌋

/-- getThicknessOptions (constants/editor.ts lines 11-14): round each ratio
times the larger image dimension. -/
def getThicknessOptions (imageWidth imageHeight : ℕ) : List ℚ :=
  thicknessRatios.map (fun r => ((jsRound (r * (max imageWidth imageHeight : ℕ))) : ℚ))

/-- JavaScript Array.prototype.indexOf: index of the first strictly-equal
element, -1 when absent. -/
def jsIndexOf (l : List ℚ) (x : ℚ) : ℤ :=
  match l.findIdx? (fun y => decide (y = x)) with
  | some i => (i : ℤ)
  | none => -1

/-- CLICK_DISTANCE_THRESHOLD from src/constants/editor.ts (second revision). -/
def CLICK_DISTANCE_THRESHOLD : ℚ := 3

/-- The useDrawing hook state relevant to strokes and history. -/
structure DrawingState where
  lines : List Line
  linesHistory : List (List Line)
  historyIndex : ℕ
  currentLine : Option Line
  isDrawing : Bool
  drawStartPoint : Option Pt
  selectedLineIndex : Option ℕ
  lineDragOffset : Pt
  lineBeforeDrag : Option Line
deriving DecidableEq, Repr

/-- Initial hook state: no lines, one empty snapshot, cursor 0. -/
def initDrawing : DrawingState :=
  { lines := [], linesHistory := [[]], historyIndex := 0
  , currentLine := none, isDrawing := false, drawStartPoint := none
  , selectedLineIndex := none, lineDragOffset := { x := 0, y := 0 }
  , lineBeforeDrag := none }

/-- saveToHistory (useDrawing.ts lines 29-43): drop every snapshot after the
cursor, append the new stroke list as a snapshot, advance the cursor, and
install the new stroke list. -/
def saveToHistory (s : DrawingState) (newLines : List Line) : DrawingState :=
  { s with linesHistory := s.linesHistory.take (s.historyIndex + 1) ++ [newLines]
         , historyIndex := s.historyIndex + 1
         , lines := newLines }

/-- The snapshots pushed by the forEach loop of addLinesIndividually: starting
from `base`, each added line extends the running list by one and pushes a copy. -/
def pushSnapshots (base : List Line) : List Line → List (List Line)
  | [] => []
  | l :: rest => (base ++ [l]) :: pushSnapshots (base ++ [l]) rest

/-- The public operations of useDrawing that the claims are about. -/
inductive DrawOp where
  | startDrawing (coords : Pt) (customThickness : Option ℚ)
  | draw (coords : Pt)
  | stopDrawing
  | selectLine (index : ℕ) (coords : Pt)
  | dragLine (coords : Pt)
  | stopDraggingLine
  | changeLineThickness (index : ℕ)
  | deleteLine (index : ℕ)
  | undo
  | addLinesIndividually (linesToAdd : List Line)
deriving DecidableEq, Repr

/-- One useDrawing operation as a pure state transformer, faithful to the
source.  The comparison `sqrt(dx^2+dy^2) > CLICK_DISTANCE_THRESHOLD` in
stopDrawing is embedded in its equivalent squared form.  Operations that would
fault in JavaScript on an out-of-range index (changeLineThickness, selectLine,
dragLine reading `lines[index]` of undefined) are modelled as the identity. -/
def applyDrawOp (imageWidth imageHeight : ℕ) (lineThickness : ℚ) :
    DrawOp → DrawingState → DrawingState
  | .startDrawing coords custom, s =>
      { s with isDrawing := true, drawStartPoint := some coords
             , currentLine := some { start := coords, stop := coords
                                   , thickness := custom.getD lineThickness } }
  | .draw coords, s =>
      match s.isDrawing, s.drawStartPoint, s.currentLine with
      | true, some sp, some cl =>
          { s with currentLine := some (Line.mk sp coords cl.thickness) }
      | _, _, _ => s
  | .stopDrawing, s =>
      let s1 :=
        match s.isDrawing, s.currentLine, s.drawStartPoint with
        | true, some cl, some _ =>
            if dist2 cl.start cl.stop > CLICK_DISTANCE_THRESHOLD ^ 2 then
              saveToHistory s (s.lines ++ [cl])
            else s
        | _, _, _ => s
      { s1 with isDrawing := false, currentLine := none, drawStartPoint := none }
  | .selectLine index coords, s =>
      match s.lines.get? index with
      | some line =>
          { s with selectedLineIndex := some index
                 , lineBeforeDrag := some line
                 , lineDragOffset :=
                     { x := coords.x - (line.start.x + line.stop.x) / 2
                     , y := coords.y - (line.start.y + line.stop.y) / 2 } }
      | none => s
  | .dragLine coords, s =>
      match s.selectedLineIndex with
      | some i =>
          match s.lines.get? i with
          | some line =>
              let dx := line.stop.x - line.start.x
              let dy := line.stop.y - line.start.y
              let centerX := coords.x - s.lineDragOffset.x
              let centerY := coords.y - s.lineDragOffset.y
              let moved := { line with
                  start := Pt.mk (centerX - dx/2) (centerY - dy/2)
                , stop := Pt.mk (centerX + dx/2) (centerY + dy/2) }
              { s with lines := s.lines.set i moved }
          | none => s
      | none => s
  | .stopDraggingLine, s =>
      let s1 :=
        match s.selectedLineIndex, s.lineBeforeDrag with
        | some i, some lb =>
            match s.lines.get? i with
            | some cur =>
                if cur.start ≠ lb.start ∨ cur.stop ≠ lb.stop then
                  saveToHistory s s.lines
                else s
            | none => s
        | _, _ => s
      { s1 with selectedLineIndex := none, lineBeforeDrag := none }
  | .changeLineThickness index, s =>
      match s.lines.get? index with
      | some line =>
          let thicknessOptions := getThicknessOptions imageWidth imageHeight
          let currentIndex := jsIndexOf thicknessOptions line.thickness
          let nextIndex := ((currentIndex + 1) % (thicknessOptions.length : ℤ)).toNat
          saveToHistory s
            (s.lines.set index { line with thickness := thicknessOptions.getD nextIndex 0 })
      | none => s
  | .deleteLine index, s =>
      saveToHistory s (s.lines.eraseIdx index)
  | .undo, s =>
      if 0 < s.historyIndex then
        { s with historyIndex := s.historyIndex - 1
               , lines := s.linesHistory.getD (s.historyIndex - 1) [] }
      else s
  | .addLinesIndividually linesToAdd, s =>
      let newHistory0 := s.linesHistory.take (s.historyIndex + 1)
      let base := (newHistory0.getLast?).getD []
      { s with linesHistory := newHistory0 ++ pushSnapshots base linesToAdd
             , historyIndex := s.historyIndex + linesToAdd.length
             , lines := s.lines ++ linesToAdd }

/-- Run a sequence of drawing operations from the initial hook state. -/
def runDraw (imageWidth imageHeight : ℕ) (lineThickness : ℚ)
    (ops : List DrawOp) : DrawingState :=
  ops.foldl (fun s op => applyDrawOp imageWidth imageHeight lineThickness op s)
    initDrawing

/-- setLinesWithHistory (useDrawing.ts lines 46-53), the public setter exposed
as the hook's setLines: apply the updater to the current stroke list and
commit the result through saveToHistory.  Modelled in its function-updater
form, the one the external-batch handler uses; the plain-list form is
saveToHistory of the given list. -/
def setLinesWithHistory (s : DrawingState) (updater : List Line → List Line) :
    DrawingState :=
  saveToHistory s (updater s.lines)

/-- The external-batch handler of ImageEditor.tsx line 47, onLinesAdd written
as setDrawingLines of (prev concatenated with the new lines): the path through
which the face detector's strokes (setup-face-api.ts line 235) enter the
session.  The hook's addLinesIndividually, which would push one snapshot per
stroke, is never called by any component of the repository. -/
def onLinesAdd (s : DrawingState) (newLines : List Line) : DrawingState :=
  setLinesWithHistory s (fun prev => prev ++ newLines)

/-- The history invariant: the cursor is a valid index into the snapshots. -/
def Inv (s : DrawingState) : Prop := s.historyIndex < s.linesHistory.length

theorem pushSnapshots_length (base ls : List Line) :
    (pushSnapshots base ls).length = ls.length := by
  induction ls generalizing base with
  | nil => rfl
  | cons l rest ih => simp [pushSnapshots, ih]

theorem pushSnapshots_getD (base ls : List Line) (j : ℕ) (hj : j < ls.length) :
    (pushSnapshots base ls).getD j [] = base ++ ls.take (j + 1) := by
  induction ls generalizing base j with
  | nil => simp at hj
  | cons l rest ih =>
      cases j with
      | zero => simp [pushSnapshots]
      | succ j =>
          have hj' : j < rest.length := by simpa using hj
          simp only [pushSnapshots, List.getD_cons_succ]
          rw [ih (base ++ [l]) j hj']
          simp [List.take_succ_cons]

/-- Every operation either leaves the snapshot sequence untouched (possibly
moving the cursor backwards, as undo does), or truncates it right after the
cursor and appends: the appended tail accounts exactly for the cursor
advance. -/
theorem applyDrawOp_hist (w h : ℕ) (d : ℚ) (op : DrawOp) (s : DrawingState) :
    ((applyDrawOp w h d op s).linesHistory = s.linesHistory ∧
      (applyDrawOp w h d op s).historyIndex ≤ s.historyIndex) ∨
    ∃ tail, (applyDrawOp w h d op s).linesHistory =
        s.linesHistory.take (s.historyIndex + 1) ++ tail ∧
      (applyDrawOp w h d op s).historyIndex = s.historyIndex + tail.length := by
  cases op with
  | startDrawing coords custom => exact Or.inl ⟨rfl, le_refl _⟩
  | draw coords =>
      simp only [applyDrawOp]
      split
      · exact Or.inl ⟨rfl, le_refl _⟩
      · exact Or.inl ⟨rfl, le_refl _⟩
  | stopDrawing =>
      simp only [applyDrawOp]
      split
      · split
        · exact Or.inr ⟨_, rfl, by simp [saveToHistory]⟩
        · exact Or.inl ⟨rfl, le_refl _⟩
      · exact Or.inl ⟨rfl, le_refl _⟩
  | selectLine index coords =>
      simp only [applyDrawOp]
      split
      · exact Or.inl ⟨rfl, le_refl _⟩
      · exact Or.inl ⟨rfl, le_refl _⟩
  | dragLine coords =>
      simp only [applyDrawOp]
      split
      · split
        · exact Or.inl ⟨rfl, le_refl _⟩
        · exact Or.inl ⟨rfl, le_refl _⟩
      · exact Or.inl ⟨rfl, le_refl _⟩
  | stopDraggingLine =>
      simp only [applyDrawOp]
      split
      · split
        · split
          · exact Or.inr ⟨_, rfl, by simp [saveToHistory]⟩
          · exact Or.inl ⟨rfl, le_refl _⟩
        · exact Or.inl ⟨rfl, le_refl _⟩
      · exact Or.inl ⟨rfl, le_refl _⟩
  | changeLineThickness index =>
      simp only [applyDrawOp]
      split
      · exact Or.inr ⟨_, rfl, by simp [saveToHistory]⟩
      · exact Or.inl ⟨rfl, le_refl _⟩
  | deleteLine index =>
      exact Or.inr ⟨_, rfl, by simp [applyDrawOp, saveToHistory]⟩
  | undo =>
      simp only [applyDrawOp]
      split
      · exact Or.inl ⟨rfl, Nat.sub_le _ _⟩
      · exact Or.inl ⟨rfl, le_refl _⟩
  | addLinesIndividually linesToAdd =>
      exact Or.inr ⟨pushSnapshots ((s.linesHistory.take (s.historyIndex + 1)).getLast?.getD [])
          linesToAdd,
        by simp [applyDrawOp], by simp [applyDrawOp, pushSnapshots_length]⟩

/-- Each operation preserves the history invariant. -/
theorem applyDrawOp_inv (w h : ℕ) (d : ℚ) (op : DrawOp) (s : DrawingState)
    (hs : Inv s) : Inv (applyDrawOp w h d op s) := by
  rcases applyDrawOp_hist w h d op s with ⟨hh, hi⟩ | ⟨tail, hh, hi⟩
  · unfold Inv at *
    rw [hh]
    exact lt_of_le_of_lt hi hs
  · unfold Inv at *
    rw [hh, hi]
    simp [List.length_take]
    omega

theorem foldl_inv (w h : ℕ) (d : ℚ) (ops : List DrawOp) (s : DrawingState)
    (hs : Inv s) :
    Inv (ops.foldl (fun t op => applyDrawOp w h d op t) s) := by
  induction ops generalizing s with
  | nil => simpa using hs
  | cons op rest ih => exact ih _ (applyDrawOp_inv w h d op s hs)

/-- Every state reachable by a sequence of operations satisfies the history
invariant. -/
theorem runDraw_inv (w h : ℕ) (d : ℚ) (ops : List DrawOp) :
    Inv (runDraw w h d ops) :=
  foldl_inv w h d ops initDrawing (by simp [Inv, initDrawing])

/-- One undo step when the cursor is positive, written out as a record. -/
theorem undo_step (w h : ℕ) (d : ℚ) (t : DrawingState) (h0 : 0 < t.historyIndex) :
    applyDrawOp w h d DrawOp.undo t =
      { t with historyIndex := t.historyIndex - 1
             , lines := t.linesHistory.getD (t.historyIndex - 1) [] } := by
  simp [applyDrawOp, h0]

/-- Iterating undo j times (with the cursor staying in range): the cursor drops
by j, the snapshots are untouched, and for j ≥ 1 the stroke list is the
snapshot at the final cursor. -/
theorem undo_iterate (w h : ℕ) (d : ℚ) (j : ℕ) (t : DrawingState)
    (hj : j ≤ t.historyIndex) :
    ((applyDrawOp w h d DrawOp.undo)^[j] t).historyIndex = t.historyIndex - j ∧
    ((applyDrawOp w h d DrawOp.undo)^[j] t).linesHistory = t.linesHistory ∧
    (1 ≤ j → ((applyDrawOp w h d DrawOp.undo)^[j] t).lines =
      t.linesHistory.getD (t.historyIndex - j) []) := by
  induction j generalizing t with
  | zero => exact ⟨by simp, by simp, by omega⟩
  | succ j ih =>
      have h0 : 0 < t.historyIndex := by omega
      rw [Function.iterate_succ_apply, undo_step w h d t h0]
      obtain ⟨h1, h2, h3⟩ := ih
        { t with historyIndex := t.historyIndex - 1
               , lines := t.linesHistory.getD (t.historyIndex - 1) [] }
        (show j ≤ t.historyIndex - 1 by omega)
      refine ⟨?_, ?_, ?_⟩
      · rw [h1]
        simp only
        omega
      · rw [h2]
      · intro _
        rcases Nat.eq_zero_or_pos j with hz | hp
        · subst hz
          simp only [Function.iterate_zero, id]
        · rw [h3 hp]
          simp only
          congr 1
          omega

/-- The last element of the first i+1 entries is the entry at index i. -/
theorem take_getLast (l : List (List Line)) (i : ℕ) (hi : i < l.length) :
    ((l.take (i + 1)).getLast?).getD [] = l.getD i [] := by
  have hlen : (l.take (i + 1)).length = i + 1 := by
    rw [List.length_take]
    omega
  have hne : l.take (i + 1) ≠ [] := by
    intro hcon
    rw [hcon] at hlen
    simp at hlen
  rw [List.getLast?_eq_getElem?, hlen]
  simp only [Nat.add_sub_cancel]
  rw [List.getElem?_take]
  simp only [Nat.lt_succ_self, if_true]
  rw [List.getElem?_eq_getElem hi, List.getD_eq_getElem l [] hi]
  rfl

end Drawing

/-! ## Gesture classification and double-tap: the useTouch revision of
src/hooks/useInstructionTooltip.ts (also src/unnamed/part_017), and the tap
dispatch of src/components/ImageEditor.tsx handleTouchEnd. -/

namespace Touch

/-- PINCH_DISTANCE_THRESHOLD from src/constants/editor.ts. -/
def PINCH_DISTANCE_THRESHOLD : ℚ := 7

/-- PINCH_CENTER_THRESHOLD from src/constants/editor.ts. -/
def PINCH_CENTER_THRESHOLD : ℚ := 12

/-- LINE_HIT_EXPANSION from src/constants/editor.ts. -/
def LINE_HIT_EXPANSION : ℚ := 25

/-- LINE_ZOOM_EXCLUSION_RADIUS from src/constants/editor.ts. -/
def LINE_ZOOM_EXCLUSION_RADIUS : ℚ := 100

/-- The two-finger gesture type of gestureTypeRef. -/
inductive GestureType where
  | undecided
  | pinch
  | pan
deriving DecidableEq, Repr

/-- The two-finger session state of the useTouch hook: the refs involved in
pinch/pan classification.  Inter-finger distances (outputs of
getTouchDistance, a square root) are carried as already-computed scalars. -/
structure PinchState where
  lastTouchDistance : Option ℚ
  isPinching : Bool
  gestureType : GestureType
  initialPinchDistance : Option ℚ
  initialPinchCenter : Option Pt
  lastPinchCenter : Option Pt
deriving DecidableEq, Repr

/-- Hook initial state: nothing recorded, not pinching, undecided. -/
def initPinch : PinchState :=
  { lastTouchDistance := none, isPinching := false
  , gestureType := GestureType.undecided
  , initialPinchDistance := none, initialPinchCenter := none
  , lastPinchCenter := none }

/-- startTouch with two or more contacts: record the inter-finger distance and
centroid as both initial and last values, mark pinching, reset the gesture
type to undecided. -/
def startTouchTwo (dist : ℚ) (center : Pt) (s : PinchState) : PinchState :=
  { s with isPinching := true
         , lastTouchDistance := some dist
         , initialPinchDistance := some dist
         , initialPinchCenter := some center
         , lastPinchCenter := some center
         , gestureType := GestureType.undecided }

/-- The classification expression of getPinchScale / getPinchCenterDelta:
decide only when the distance change exceeds PINCH_DISTANCE_THRESHOLD or the
centroid displacement exceeds PINCH_CENTER_THRESHOLD; then pinch iff the
distance change exceeds 1.5 times the centroid displacement, else pan.
`centerChange > t` is embedded as `centerChangeSq > t^2` and
`distanceChange > centerChange * 1.5` as
`distanceChange^2 > (3/2)^2 * centerChangeSq`; the squared forms are
equivalent to the source's square-root comparisons since both sides are
nonnegative.  Returns `undecided` when the trigger has not fired (the source
leaves gestureTypeRef untouched). -/
def classifyGesture (currentDistance initialDistance centerChangeSq : ℚ) :
    GestureType :=
  let distanceChange := |currentDistance - initialDistance|
  if distanceChange > PINCH_DISTANCE_THRESHOLD ∨
      centerChangeSq > PINCH_CENTER_THRESHOLD ^ 2 then
    (if distanceChange ^ 2 > (3/2) ^ 2 * centerChangeSq then GestureType.pinch
     else GestureType.pan)
  else GestureType.undecided

/-- The shared classification block: runs only while the gesture type is still
undecided and the initial distance and centroid are recorded (the source also
skips when the recorded initial distance is 0, a JavaScript falsy value). -/
def updateGestureType (s : PinchState) (currentDistance : ℚ)
    (currentCenter : Pt) : PinchState :=
  match s.gestureType, s.initialPinchDistance, s.initialPinchCenter with
  | GestureType.undecided, some d0, some c0 =>
      if d0 ≠ 0 then
        match classifyGesture currentDistance d0 (dist2 currentCenter c0) with
        | GestureType.undecided => s
        | t => { s with gestureType := t }
      else s
  | _, _, _ => s

/-- getPinchScale: with two contacts, a recorded last distance and an active
pinch, run the classification block, then return the frame-to-frame distance
ratio only when the gesture is a pinch; the last distance is updated in either
case. -/
def getPinchScale (s : PinchState) (touchCount : ℕ) (currentDistance : ℚ)
    (currentCenter : Pt) : Option ℚ × PinchState :=
  if touchCount = 2 then
    match s.lastTouchDistance, s.isPinching with
    | some last, true =>
        let s1 := updateGestureType s currentDistance currentCenter
        if s1.gestureType = GestureType.pinch then
          (some (currentDistance / last),
           { s1 with lastTouchDistance := some currentDistance })
        else
          (none, { s1 with lastTouchDistance := some currentDistance })
    | _, _ => (none, s)
  else (none, s)

/-- getPinchCenterDelta: the same classification block, returning the centroid
delta only when the gesture is a pan; the last centroid is updated in either
case. -/
def getPinchCenterDelta (s : PinchState) (touchCount : ℕ) (currentDistance : ℚ)
    (currentCenter : Pt) : Option Pt × PinchState :=
  if touchCount = 2 then
    match s.lastPinchCenter, s.isPinching with
    | some lastC, true =>
        let s1 := updateGestureType s currentDistance currentCenter
        if s1.gestureType = GestureType.pan then
          (some (Pt.mk (currentCenter.x - lastC.x) (currentCenter.y - lastC.y)),
           { s1 with lastPinchCenter := some currentCenter })
        else
          (none, { s1 with lastPinchCenter := some currentCenter })
    | _, _ => (none, s)
  else (none, s)

/-- The two kinds of update that touch a two-finger session mid-gesture. -/
inductive PinchMove where
  | scaleStep (touchCount : ℕ) (currentDistance : ℚ) (currentCenter : Pt)
  | deltaStep (touchCount : ℕ) (currentDistance : ℚ) (currentCenter : Pt)
deriving DecidableEq, Repr

def applyPinchMove (s : PinchState) : PinchMove → PinchState
  | PinchMove.scaleStep n dist c => (getPinchScale s n dist c).2
  | PinchMove.deltaStep n dist c => (getPinchCenterDelta s n dist c).2

/-- The classification rule as the claim words it: a pinch exactly when the
distance change beats 1.5 times the centroid displacement AND both the
distance change and the centroid displacement exceed their absolute
thresholds.  Spec-side definition, for comparison against the source
classifier; squared embedding as in classifyGesture. -/
def claimedPinchRule (distanceChange centerChangeSq : ℚ) : Prop :=
  distanceChange ^ 2 > (3/2) ^ 2 * centerChangeSq ∧
  distanceChange > PINCH_DISTANCE_THRESHOLD ∧
  centerChangeSq > PINCH_CENTER_THRESHOLD ^ 2

/-! Double-tap detection (checkDoubleTap) and the tap dispatch of
handleTouchEnd. -/

/-- The double-tap refs: lastTapTimeRef (initially 0) and lastTapPositionRef
(initially null). -/
structure DoubleTapState where
  lastTapTime : ℚ
  lastTapPosition : Option Pt
deriving DecidableEq, Repr

def initDoubleTap : DoubleTapState :=
  { lastTapTime := 0, lastTapPosition := none }

/-- checkDoubleTap: a tap is a double tap when a previous tap is recorded,
this tap comes less than 300ms after it and lands less than 30px away
(distance embedded squared); recognition clears the record (time 0,
position null), otherwise the tap is recorded for next time. -/
def checkDoubleTap (st : DoubleTapState) (now : ℚ) (position : Pt) :
    Bool × DoubleTapState :=
  let timeDiff := now - st.lastTapTime
  match st.lastTapPosition with
  | some prev =>
      if timeDiff < 300 then
        if dist2 position prev < 30 ^ 2 then
          (true, { lastTapTime := 0, lastTapPosition := none })
        else (false, { lastTapTime := now, lastTapPosition := some position })
      else (false, { lastTapTime := now, lastTapPosition := some position })
  | none => (false, { lastTapTime := now, lastTapPosition := some position })

/-- distanceToLineSegment of useDrawing, squared: project the point on the
segment (clamping the parameter into [0,1], with -1 for a degenerate
segment) and return the squared distance to the projection. -/
def distanceToLineSegmentSq (point start stop : Pt) : ℚ :=
  let A := point.x - start.x
  let B := point.y - start.y
  let C := stop.x - start.x
  let D := stop.y - start.y
  let dot := A * C + B * D
  let lenSq := C * C + D * D
  let param := if lenSq ≠ 0 then dot / lenSq else -1
  let xx := if param < 0 then start.x
            else if param > 1 then stop.x else start.x + param * C
  let yy := if param < 0 then start.y
            else if param > 1 then stop.y else start.y + param * D
  (point.x - xx) ^ 2 + (point.y - yy) ^ 2

/-- findLineAtPoint: index of the closest stroke whose segment distance is
below thickness/2 + LINE_HIT_EXPANSION, -1 when none qualifies.  The source's
`dist < hitRadius` on square roots is embedded as
`0 < hitRadius ∧ distSq < hitRadius^2`, and `dist < closestDistance` (with
Infinity as the initial closest) as a squared comparison against an Option. -/
def findLineAtPoint (lines : List Line) (point : Pt) : ℤ :=
  (lines.enum.foldl (fun acc il =>
    let distSq := distanceToLineSegmentSq point il.2.start il.2.stop
    let hitRadius := il.2.thickness / 2 + LINE_HIT_EXPANSION
    let withinHit := decide (0 < hitRadius) && decide (distSq < hitRadius ^ 2)
    let closer := match acc.2 with
      | none => true
      | some best => decide (distSq < best)
    if withinHit && closer then ((il.1 : ℤ), some distSq) else acc)
    (-1, (none : Option ℚ))).1

/-- isNearLine: some stroke's segment distance is within the threshold
(squared embedding of `dist ≤ threshold`). -/
def isNearLine (lines : List Line) (point : Pt) (threshold : ℚ) : Bool :=
  lines.any fun line =>
    let distSq := distanceToLineSegmentSq point line.start line.stop
    decide (0 ≤ threshold) && decide (distSq ≤ threshold ^ 2)

/-- What the quick-tap branch of handleTouchEnd decides to do. -/
inductive TapAction where
  | cycleThickness (index : ℕ)
  | suppressed
  | doubleTapZoom
  | singleTapRecorded
  | noTap
deriving DecidableEq, Repr

/-- The quick-tap dispatch of handleTouchEnd (ImageEditor.tsx lines 324-352):
a quick non-pinch tap on a stroke cycles that stroke's thickness; a tap near a
stroke (within the zoom exclusion radius) does nothing; otherwise the tap is
fed to checkDoubleTap and zooms on recognition.  The double-tap record is
touched only in the last branch. -/
def handleTapEnd (lines : List Line) (isQuickTap isPinching : Bool)
    (tapClient : Pt) (coords : Pt) (st : DoubleTapState) (now : ℚ) :
    TapAction × DoubleTapState :=
  if isQuickTap && !isPinching then
    let clickedLineIndex := findLineAtPoint lines coords
    if clickedLineIndex ≠ -1 then
      (TapAction.cycleThickness clickedLineIndex.toNat, st)
    else if isNearLine lines coords LINE_ZOOM_EXCLUSION_RADIUS then
      (TapAction.suppressed, st)
    else
      let res := checkDoubleTap st now tapClient
      if res.1 then (TapAction.doubleTapZoom, res.2)
      else (TapAction.singleTapRecorded, res.2)
  else (TapAction.noTap, st)

end Touch
end Mesen

namespace Mesen
namespace Drawing

/-- C6: after any sequence of public drawing/history operations the history
cursor is a valid index into the snapshot sequence, and any further operation
either leaves the snapshots untouched or first truncates everything strictly
after the cursor and then appends — the appended tail accounting exactly for
the cursor advance, so no future snapshots survive a post-undo mutation. -/
theorem C6_history_cursor (w h : ℕ) (d : ℚ) (ops : List DrawOp) :
    (runDraw w h d ops).historyIndex < (runDraw w h d ops).linesHistory.length ∧
    ∀ op : DrawOp,
      (applyDrawOp w h d op (runDraw w h d ops)).linesHistory =
          (runDraw w h d ops).linesHistory ∨
      ∃ tail, (applyDrawOp w h d op (runDraw w h d ops)).linesHistory =
          (runDraw w h d ops).linesHistory.take
            ((runDraw w h d ops).historyIndex + 1) ++ tail ∧
        (applyDrawOp w h d op (runDraw w h d ops)).historyIndex =
          (runDraw w h d ops).historyIndex + tail.length := by
  refine ⟨runDraw_inv w h d ops, fun op => ?_⟩
  rcases applyDrawOp_hist w h d op (runDraw w h d ops) with ⟨hh, _⟩ | ⟨tail, hh, hi⟩
  · exact Or.inl hh
  · exact Or.inr ⟨tail, hh, hi⟩

/-- C7: undo at cursor 0 is a no-op on the whole state (so any number of
consecutive boundary undos equals a single one), and undo at a positive cursor
decrements the cursor by one, replaces the stroke list with that snapshot, and
leaves the snapshot sequence unchanged. -/
theorem C7_undo_boundary (w h : ℕ) (d : ℚ) (ops : List DrawOp) :
    ((runDraw w h d ops).historyIndex = 0 →
      applyDrawOp w h d DrawOp.undo (runDraw w h d ops) = runDraw w h d ops) ∧
    ((runDraw w h d ops).historyIndex = 0 → ∀ n : ℕ,
      (applyDrawOp w h d DrawOp.undo)^[n] (runDraw w h d ops) = runDraw w h d ops) ∧
    (0 < (runDraw w h d ops).historyIndex →
      (applyDrawOp w h d DrawOp.undo (runDraw w h d ops)).historyIndex =
          (runDraw w h d ops).historyIndex - 1 ∧
      (applyDrawOp w h d DrawOp.undo (runDraw w h d ops)).lines =
          (runDraw w h d ops).linesHistory.getD
            ((runDraw w h d ops).historyIndex - 1) [] ∧
      (applyDrawOp w h d DrawOp.undo (runDraw w h d ops)).linesHistory =
          (runDraw w h d ops).linesHistory) := by
  have hfix : (runDraw w h d ops).historyIndex = 0 →
      applyDrawOp w h d DrawOp.undo (runDraw w h d ops) = runDraw w h d ops := by
    intro h0
    simp [applyDrawOp, h0]
  refine ⟨hfix, fun h0 n => Function.iterate_fixed (hfix h0) n, fun h0 => ?_⟩
  rw [undo_step w h d _ h0]
  exact ⟨rfl, rfl, rfl⟩

/-- Taking i+1 entries and reading entry i is reading entry i. -/
theorem take_getD (l : List (List Line)) (i : ℕ) (hi : i < l.length) :
    (l.take (i + 1)).getD i [] = l.getD i [] := by
  have h1 : i < (l.take (i + 1)).length := by
    rw [List.length_take]
    omega
  rw [List.getD_eq_getElem _ _ h1, List.getD_eq_getElem _ _ hi]
  apply List.getElem_take

/-- What the hook's addLinesIndividually would do if it were invoked: one full
snapshot per added stroke, cursor advance by the batch size, and individual
undo of each added stroke.  No component of the repository calls this
function; the external-batch path actually used is onLinesAdd, whose
behaviour is established separately. -/
theorem addLinesIndividually_spec (w h : ℕ) (d : ℚ) (ops : List DrawOp) (ls : List Line) :
    (applyDrawOp w h d (DrawOp.addLinesIndividually ls)
        (runDraw w h d ops)).linesHistory.length
      = (runDraw w h d ops).historyIndex + 1 + ls.length ∧
    (applyDrawOp w h d (DrawOp.addLinesIndividually ls)
        (runDraw w h d ops)).historyIndex
      = (runDraw w h d ops).historyIndex + ls.length ∧
    (applyDrawOp w h d (DrawOp.addLinesIndividually ls)
        (runDraw w h d ops)).lines
      = (runDraw w h d ops).lines ++ ls ∧
    ∀ j : ℕ, 1 ≤ j → j ≤ ls.length →
      ((applyDrawOp w h d DrawOp.undo)^[j]
          (applyDrawOp w h d (DrawOp.addLinesIndividually ls)
            (runDraw w h d ops))).lines
        = (runDraw w h d ops).linesHistory.getD (runDraw w h d ops).historyIndex []
            ++ ls.take (ls.length - j) ∧
      ((applyDrawOp w h d DrawOp.undo)^[j]
          (applyDrawOp w h d (DrawOp.addLinesIndividually ls)
            (runDraw w h d ops))).historyIndex
        = (runDraw w h d ops).historyIndex + ls.length - j := by
  have hinv : Inv (runDraw w h d ops) := runDraw_inv w h d ops
  set s := runDraw w h d ops with hs
  unfold Inv at hinv
  set tk := s.linesHistory.take (s.historyIndex + 1) with htk
  set base := tk.getLast?.getD [] with hbase0
  have htlen : tk.length = s.historyIndex + 1 := by
    rw [htk, List.length_take]
    omega
  have hbase : base = s.linesHistory.getD s.historyIndex [] := by
    rw [hbase0, htk]
    exact take_getLast _ _ hinv
  have hhist : (applyDrawOp w h d (DrawOp.addLinesIndividually ls) s).linesHistory =
      tk ++ pushSnapshots base ls := rfl
  have hidx2 : (applyDrawOp w h d (DrawOp.addLinesIndividually ls) s).historyIndex =
      s.historyIndex + ls.length := rfl
  refine ⟨?_, hidx2, rfl, ?_⟩
  · rw [hhist]
    simp only [List.length_append, htlen, pushSnapshots_length]
  · intro j hj1 hjk
    have hj' : j ≤ (applyDrawOp w h d (DrawOp.addLinesIndividually ls) s).historyIndex := by
      rw [hidx2]
      omega
    obtain ⟨h1, h2, h3⟩ := undo_iterate w h d j _ hj'
    have hlines := h3 hj1
    rw [hidx2] at h1
    rw [hhist, hidx2] at hlines
    refine ⟨?_, by rw [h1]⟩
    rw [hlines]
    rcases Nat.lt_or_ge j ls.length with hlt | hge
    · rw [List.getD_append_right _ _ _ _
        (by omega : tk.length ≤ s.historyIndex + ls.length - j)]
      rw [htlen]
      have hidx : s.historyIndex + ls.length - j - (s.historyIndex + 1) =
          ls.length - j - 1 := by omega
      rw [hidx, pushSnapshots_getD _ _ _ (by omega), hbase]
      have hsucc : ls.length - j - 1 + 1 = ls.length - j := by omega
      rw [hsucc]
    · have hjeq : j = ls.length := by omega
      subst hjeq
      have hpos : s.historyIndex + ls.length - ls.length = s.historyIndex := by omega
      rw [hpos]
      rw [List.getD_append _ _ _ _ (by omega : s.historyIndex < tk.length),
        htk, take_getD _ _ hinv]
      simp

/-- C8 counterexample: the program's external-batch path — the onLinesAdd
handler feeding setLinesWithHistory, the way the automated face detector's
strokes enter the session — commits a batch of two strokes as ONE snapshot:
the cursor advances by 1, not by the batch size 2, the snapshot sequence
gains a single entry holding both strokes, and a single undo removes the
entire batch.  The claimed one-snapshot-per-stroke push, per-stroke cursor
advance and individual undo are therefore false on the program at this
input. -/
theorem C8_counterexample :
    (onLinesAdd initDrawing
        [Line.mk (Pt.mk 0 0) (Pt.mk 50 0) 10,
         Line.mk (Pt.mk 0 9) (Pt.mk 50 9) 20]).lines =
      [Line.mk (Pt.mk 0 0) (Pt.mk 50 0) 10,
       Line.mk (Pt.mk 0 9) (Pt.mk 50 9) 20] ∧
    (onLinesAdd initDrawing
        [Line.mk (Pt.mk 0 0) (Pt.mk 50 0) 10,
         Line.mk (Pt.mk 0 9) (Pt.mk 50 9) 20]).historyIndex = 1 ∧
    (onLinesAdd initDrawing
        [Line.mk (Pt.mk 0 0) (Pt.mk 50 0) 10,
         Line.mk (Pt.mk 0 9) (Pt.mk 50 9) 20]).linesHistory =
      [[], [Line.mk (Pt.mk 0 0) (Pt.mk 50 0) 10,
            Line.mk (Pt.mk 0 9) (Pt.mk 50 9) 20]] ∧
    ¬ ((onLinesAdd initDrawing
          [Line.mk (Pt.mk 0 0) (Pt.mk 50 0) 10,
           Line.mk (Pt.mk 0 9) (Pt.mk 50 9) 20]).historyIndex =
        initDrawing.historyIndex +
          ([Line.mk (Pt.mk 0 0) (Pt.mk 50 0) 10,
            Line.mk (Pt.mk 0 9) (Pt.mk 50 9) 20] : List Line).length) ∧
    (applyDrawOp 1000 800 10 DrawOp.undo
        (onLinesAdd initDrawing
          [Line.mk (Pt.mk 0 0) (Pt.mk 50 0) 10,
           Line.mk (Pt.mk 0 9) (Pt.mk 50 9) 20])).lines = [] := by
  decide

/-- C8 (amended): when a batch of externally supplied strokes is added to the
drawing session (the face detector's path: onLinesAdd feeding
setLinesWithHistory), the batch is appended to the stroke list and committed
as a single full-snapshot history entry: after truncating post-cursor
snapshots the snapshot count is cursor+2, the cursor advances by exactly one
regardless of the batch size, the appended snapshot holds the whole extended
list, and one undo removes the entire batch by restoring the pre-batch
snapshot at the pre-batch cursor. -/
theorem C8_batch_single_snapshot (w h : ℕ) (d : ℚ) (ops : List DrawOp)
    (newLines : List Line) :
    (onLinesAdd (runDraw w h d ops) newLines).lines =
        (runDraw w h d ops).lines ++ newLines ∧
    (onLinesAdd (runDraw w h d ops) newLines).linesHistory.length =
        (runDraw w h d ops).historyIndex + 2 ∧
    (onLinesAdd (runDraw w h d ops) newLines).historyIndex =
        (runDraw w h d ops).historyIndex + 1 ∧
    (onLinesAdd (runDraw w h d ops) newLines).linesHistory.getD
        ((runDraw w h d ops).historyIndex + 1) [] =
        (runDraw w h d ops).lines ++ newLines ∧
    (applyDrawOp w h d DrawOp.undo
        (onLinesAdd (runDraw w h d ops) newLines)).lines =
        (runDraw w h d ops).linesHistory.getD
          (runDraw w h d ops).historyIndex [] ∧
    (applyDrawOp w h d DrawOp.undo
        (onLinesAdd (runDraw w h d ops) newLines)).historyIndex =
        (runDraw w h d ops).historyIndex := by
  have hinv : Inv (runDraw w h d ops) := runDraw_inv w h d ops
  set s := runDraw w h d ops with hs
  unfold Inv at hinv
  have htlen : (s.linesHistory.take (s.historyIndex + 1)).length =
      s.historyIndex + 1 := by
    rw [List.length_take]
    omega
  have hh : (onLinesAdd s newLines).linesHistory =
      s.linesHistory.take (s.historyIndex + 1) ++ [s.lines ++ newLines] := rfl
  have hix : (onLinesAdd s newLines).historyIndex = s.historyIndex + 1 := rfl
  have h0 : 0 < (onLinesAdd s newLines).historyIndex := by
    rw [hix]
    omega
  refine ⟨rfl, ?_, rfl, ?_, ?_, ?_⟩
  · rw [hh]
    simp only [List.length_append, htlen, List.length_singleton]
  · rw [hh]
    rw [List.getD_append_right _ _ _ _
      (by rw [htlen] : (s.linesHistory.take (s.historyIndex + 1)).length ≤
        s.historyIndex + 1)]
    rw [htlen]
    simp
  · rw [undo_step w h d _ h0]
    simp only
    rw [hix, hh]
    have hsub : s.historyIndex + 1 - 1 = s.historyIndex := by omega
    rw [hsub]
    rw [List.getD_append _ _ _ _
      (by rw [htlen]; omega : s.historyIndex <
        (s.linesHistory.take (s.historyIndex + 1)).length)]
    exact take_getD _ _ hinv
  · rw [undo_step w h d _ h0]
    simp only
    rw [hix]
    omega

/-- C3 counterexample: a drawing session whose open stroke runs from (0,0) to
(3,0) has length exactly the click-distance threshold (3), so its length is ≥
the threshold — yet stopDrawing discards it (the source commits only on a
strictly greater length), leaving the committed list and the history
untouched.  The claimed equivalence "committed iff length ≥ threshold" is
therefore false at this input.  Lengths are compared in squared form. -/
theorem C3_counterexample :
    dist2 (Pt.mk 0 0) (Pt.mk 3 0) ≥ CLICK_DISTANCE_THRESHOLD ^ 2 ∧
    (runDraw 1000 800 10
        [DrawOp.startDrawing (Pt.mk 0 0) none, DrawOp.draw (Pt.mk 3 0),
         DrawOp.stopDrawing]).lines = [] ∧
    (runDraw 1000 800 10
        [DrawOp.startDrawing (Pt.mk 0 0) none, DrawOp.draw (Pt.mk 3 0),
         DrawOp.stopDrawing]).linesHistory = [[]] ∧
    ¬ (dist2 (Pt.mk 0 0) (Pt.mk 3 0) ≥ CLICK_DISTANCE_THRESHOLD ^ 2 ↔
        Line.mk (Pt.mk 0 0) (Pt.mk 3 0) 10 ∈
          (runDraw 1000 800 10
            [DrawOp.startDrawing (Pt.mk 0 0) none, DrawOp.draw (Pt.mk 3 0),
             DrawOp.stopDrawing]).lines) := by
  have h9 : dist2 (Pt.mk 0 0) (Pt.mk 3 0) = 9 := by
    norm_num [dist2]
  have hcond : ¬ (dist2 (Pt.mk 0 0) (Pt.mk 3 0) > CLICK_DISTANCE_THRESHOLD ^ 2) := by
    rw [h9]
    norm_num [CLICK_DISTANCE_THRESHOLD]
  have hs2 : runDraw 1000 800 10
      [DrawOp.startDrawing (Pt.mk 0 0) none, DrawOp.draw (Pt.mk 3 0)] =
      { initDrawing with isDrawing := true, drawStartPoint := some (Pt.mk 0 0)
                       , currentLine := some (Line.mk (Pt.mk 0 0) (Pt.mk 3 0) 10) } := rfl
  have hs3 : runDraw 1000 800 10
      [DrawOp.startDrawing (Pt.mk 0 0) none, DrawOp.draw (Pt.mk 3 0),
       DrawOp.stopDrawing] = initDrawing := by
    show applyDrawOp 1000 800 10 DrawOp.stopDrawing
        (runDraw 1000 800 10
          [DrawOp.startDrawing (Pt.mk 0 0) none, DrawOp.draw (Pt.mk 3 0)]) = initDrawing
    rw [hs2]
    simp only [applyDrawOp]
    rw [if_neg hcond]
    rfl
  refine ⟨by rw [h9]; norm_num [CLICK_DISTANCE_THRESHOLD],
    by rw [hs3]; rfl, by rw [hs3]; rfl, ?_⟩
  intro hiff
  have hmem := hiff.mp (by rw [h9]; norm_num [CLICK_DISTANCE_THRESHOLD])
  rw [hs3] at hmem
  simp [initDrawing] at hmem

/-- C3 (amended): when stopDrawing ends a drawing session, the open stroke is
appended to the committed list iff its length is STRICTLY greater than the
click-distance threshold; otherwise the list is unchanged; in either case the
open stroke is discarded and drawing ends; and every stroke in the resulting
list was already committed or has length strictly above the threshold.
Lengths are compared in squared form (sqrt(d) > t iff d > t^2 for t ≥ 0). -/
theorem C3_commit_threshold (w h : ℕ) (d : ℚ) (s : DrawingState)
    (cl : Line) (sp : Pt) (hdraw : s.isDrawing = true)
    (hcl : s.currentLine = some cl) (hsp : s.drawStartPoint = some sp) :
    (dist2 cl.start cl.stop > CLICK_DISTANCE_THRESHOLD ^ 2 →
      (applyDrawOp w h d DrawOp.stopDrawing s).lines = s.lines ++ [cl]) ∧
    (¬ dist2 cl.start cl.stop > CLICK_DISTANCE_THRESHOLD ^ 2 →
      (applyDrawOp w h d DrawOp.stopDrawing s).lines = s.lines ∧
      (applyDrawOp w h d DrawOp.stopDrawing s).linesHistory = s.linesHistory) ∧
    (applyDrawOp w h d DrawOp.stopDrawing s).isDrawing = false ∧
    (applyDrawOp w h d DrawOp.stopDrawing s).currentLine = none ∧
    ∀ l ∈ (applyDrawOp w h d DrawOp.stopDrawing s).lines,
      l ∈ s.lines ∨ dist2 l.start l.stop > CLICK_DISTANCE_THRESHOLD ^ 2 := by
  have hred : applyDrawOp w h d DrawOp.stopDrawing s =
      (if dist2 cl.start cl.stop > CLICK_DISTANCE_THRESHOLD ^ 2 then
        { saveToHistory s (s.lines ++ [cl]) with
            isDrawing := false, currentLine := none, drawStartPoint := none }
      else
        { s with isDrawing := false, currentLine := none, drawStartPoint := none }) := by
    simp only [applyDrawOp, hdraw, hcl, hsp]
    split <;> rfl
  by_cases hgt : dist2 cl.start cl.stop > CLICK_DISTANCE_THRESHOLD ^ 2
  · rw [hred, if_pos hgt]
    refine ⟨fun _ => rfl, fun hc => absurd hgt hc, rfl, rfl, fun l hl => ?_⟩
    simp only [saveToHistory, List.mem_append, List.mem_singleton] at hl
    rcases hl with hold | heq
    · exact Or.inl hold
    · subst heq
      exact Or.inr hgt
  · rw [hred, if_neg hgt]
    exact ⟨fun hc => absurd hc hgt, fun _ => ⟨rfl, rfl⟩, rfl, rfl,
      fun l hl => Or.inl hl⟩

/-- Witness for C3 (amended) at a session that draws from (0,0) to (5,0):
length 5 > threshold 3, so the stroke is committed. -/
theorem C3_commit_threshold_witness :
    ((runDraw 1000 800 10
        [DrawOp.startDrawing (Pt.mk 0 0) none, DrawOp.draw (Pt.mk 5 0)]).isDrawing
      = true) ∧
    ((runDraw 1000 800 10
        [DrawOp.startDrawing (Pt.mk 0 0) none, DrawOp.draw (Pt.mk 5 0)]).currentLine
      = some (Line.mk (Pt.mk 0 0) (Pt.mk 5 0) 10)) ∧
    ((applyDrawOp 1000 800 10 DrawOp.stopDrawing
        (runDraw 1000 800 10
          [DrawOp.startDrawing (Pt.mk 0 0) none, DrawOp.draw (Pt.mk 5 0)])).lines
      = (runDraw 1000 800 10
          [DrawOp.startDrawing (Pt.mk 0 0) none, DrawOp.draw (Pt.mk 5 0)]).lines
        ++ [Line.mk (Pt.mk 0 0) (Pt.mk 5 0) 10]) :=
  ⟨by decide, by decide,
   (C3_commit_threshold 1000 800 10
      (runDraw 1000 800 10
        [DrawOp.startDrawing (Pt.mk 0 0) none, DrawOp.draw (Pt.mk 5 0)])
      (Line.mk (Pt.mk 0 0) (Pt.mk 5 0) 10) (Pt.mk 0 0)
      (by decide) (by decide) (by decide)).1
    (by norm_num [dist2, CLICK_DISTANCE_THRESHOLD])⟩

/-- Characterisation of jsRound through bounds on the argument. -/
theorem jsRound_eq (q : ℚ) (z : ℤ) (h1 : (z:ℚ) ≤ q + 1/2) (h2 : q + 1/2 < z + 1) :
    jsRound q = z := by
  unfold jsRound
  rw [Int.floor_eq_iff]
  exact ⟨h1, h2⟩

/-- For an image whose larger dimension is 1000 the derived thickness options
are [2, 5, 10, 20, 50, 100]. -/
theorem getThicknessOptions_1000 (w2 h2 : ℕ) (hm : max w2 h2 = 1000) :
    getThicknessOptions w2 h2 = [2, 5, 10, 20, 50, 100] := by
  unfold getThicknessOptions thicknessRatios
  rw [hm]
  have e1 : jsRound ((2:ℚ)/1000 * ((1000:ℕ):ℚ)) = 2 :=
    jsRound_eq _ _ (by push_cast; norm_num) (by push_cast; norm_num)
  have e2 : jsRound ((5:ℚ)/1000 * ((1000:ℕ):ℚ)) = 5 :=
    jsRound_eq _ _ (by push_cast; norm_num) (by push_cast; norm_num)
  have e3 : jsRound ((1:ℚ)/100 * ((1000:ℕ):ℚ)) = 10 :=
    jsRound_eq _ _ (by push_cast; norm_num) (by push_cast; norm_num)
  have e4 : jsRound ((2:ℚ)/100 * ((1000:ℕ):ℚ)) = 20 :=
    jsRound_eq _ _ (by push_cast; norm_num) (by push_cast; norm_num)
  have e5 : jsRound ((5:ℚ)/100 * ((1000:ℕ):ℚ)) = 50 :=
    jsRound_eq _ _ (by push_cast; norm_num) (by push_cast; norm_num)
  have e6 : jsRound ((1:ℚ)/10 * ((1000:ℕ):ℚ)) = 100 :=
    jsRound_eq _ _ (by push_cast; norm_num) (by push_cast; norm_num)
  simp only [List.map, e1, e2, e3, e4, e5, e6]
  norm_num

/-- C9 counterexample: for an image whose larger dimension is 1000 the derived
thickness option list is [2, 5, 10, 20, 50, 100] — ratios 0.05 and 0.1 of 1000
give 50 and 100 — not [2, 5, 10, 20, 40, 60] as claimed. -/
theorem C9_counterexample :
    getThicknessOptions 1000 600 = [2, 5, 10, 20, 50, 100] ∧
    getThicknessOptions 1000 600 ≠ [2, 5, 10, 20, 40, 60] := by
  have h1000 := getThicknessOptions_1000 1000 600 (by norm_num)
  refine ⟨h1000, ?_⟩
  rw [h1000]
  decide

/-- C9 (amended): for a larger dimension of 1000 the derived option list is
[2, 5, 10, 20, 50, 100].  changeLineThickness replaces the target stroke's
thickness with the next entry of the option list in order — wrapping from the
last entry to the first — leaves its endpoints and all other strokes
unchanged; concretely, with larger dimension 1000, cycling a stroke of
thickness 10 yields 20, and cycling a stroke of thickness 60 (not an entry of
the derived list) yields 2. -/
theorem C9_cycle_next (w h : ℕ) (d : ℚ) (s : DrawingState) (i j : ℕ) (line : Line)
    (hget : s.lines.get? i = some line)
    (hfind : (getThicknessOptions w h).findIdx?
        (fun t => decide (t = line.thickness)) = some j) :
    ((applyDrawOp w h d (DrawOp.changeLineThickness i) s).lines.get? i =
      some (Line.mk line.start line.stop
        ((getThicknessOptions w h).getD
          ((j + 1) % (getThicknessOptions w h).length) 0))) ∧
    (∀ m, m ≠ i →
      (applyDrawOp w h d (DrawOp.changeLineThickness i) s).lines.get? m =
        s.lines.get? m) ∧
    ((getThicknessOptions w h).getD
        ((j + 1) % (getThicknessOptions w h).length) 0 =
      if j + 1 < (getThicknessOptions w h).length
      then (getThicknessOptions w h).getD (j + 1) 0
      else (getThicknessOptions w h).getD 0 0) ∧
    ((applyDrawOp 1000 600 10 (DrawOp.changeLineThickness 0)
        (DrawingState.mk [Line.mk (Pt.mk 1 2) (Pt.mk 3 4) 10] [[]] 0 none false
          none none (Pt.mk 0 0) none)).lines
      = [Line.mk (Pt.mk 1 2) (Pt.mk 3 4) 20]) ∧
    ((applyDrawOp 1000 600 10 (DrawOp.changeLineThickness 0)
        (DrawingState.mk [Line.mk (Pt.mk 1 2) (Pt.mk 3 4) 60] [[]] 0 none false
          none none (Pt.mk 0 0) none)).lines
      = [Line.mk (Pt.mk 1 2) (Pt.mk 3 4) 2]) := by
  obtain ⟨hi, -⟩ := List.get?_eq_some.mp hget
  have hjidx : jsIndexOf (getThicknessOptions w h) line.thickness = (j:ℤ) := by
    unfold jsIndexOf
    rw [hfind]
  have hjlt : j < (getThicknessOptions w h).length :=
    (List.findIdx?_eq_some_iff_findIdx_eq.mp hfind).1
  have hnext : ((jsIndexOf (getThicknessOptions w h) line.thickness + 1) %
      ((getThicknessOptions w h).length : ℤ)).toNat =
      (j + 1) % (getThicknessOptions w h).length := by
    rw [hjidx]
    rw [show ((j:ℤ) + 1) = ((j + 1 : ℕ) : ℤ) by push_cast; ring]
    rw [← Int.natCast_mod]
    exact Int.toNat_natCast _
  have hred : applyDrawOp w h d (DrawOp.changeLineThickness i) s =
      saveToHistory s (s.lines.set i
        (Line.mk line.start line.stop
          ((getThicknessOptions w h).getD
            ((j + 1) % (getThicknessOptions w h).length) 0))) := by
    simp only [applyDrawOp, hget]
    rw [hnext]
  have h1000 := getThicknessOptions_1000 1000 600 (by norm_num)
  refine ⟨?_, ?_, ?_, ?_, ?_⟩
  · rw [hred]
    show (s.lines.set i _).get? i = _
    rw [List.get?_set_of_lt _ _ hi]
    simp
  · intro m hm
    rw [hred]
    show (s.lines.set i _).get? m = _
    rw [List.get?_set_of_lt' _ _ hi, if_neg (fun hc => hm hc.symm)]
  · by_cases hlt : j + 1 < (getThicknessOptions w h).length
    · rw [if_pos hlt, Nat.mod_eq_of_lt hlt]
    · have hje : j + 1 = (getThicknessOptions w h).length := by omega
      rw [if_neg hlt, hje, Nat.mod_self]
  · simp only [applyDrawOp, List.get?]
    rw [h1000]
    decide
  · simp only [applyDrawOp, List.get?]
    rw [h1000]
    decide

/-- Witness for C9 (amended): a stroke of thickness 10 at index 0 with larger
dimension 1000; its first-occurrence index in [2,5,10,20,50,100] is 2, and
cycling yields the option at index 3. -/
theorem C9_cycle_next_witness :
    ((DrawingState.mk [Line.mk (Pt.mk 1 2) (Pt.mk 3 4) 10] [[]] 0 none false
        none none (Pt.mk 0 0) none).lines.get? 0 =
      some (Line.mk (Pt.mk 1 2) (Pt.mk 3 4) 10)) ∧
    ((getThicknessOptions 1000 600).findIdx?
        (fun t => decide (t = (Line.mk (Pt.mk 1 2) (Pt.mk 3 4) 10).thickness)) =
      some 2) ∧
    ((applyDrawOp 1000 600 10 (DrawOp.changeLineThickness 0)
        (DrawingState.mk [Line.mk (Pt.mk 1 2) (Pt.mk 3 4) 10] [[]] 0 none false
          none none (Pt.mk 0 0) none)).lines.get? 0 =
      some (Line.mk (Pt.mk 1 2) (Pt.mk 3 4)
        ((getThicknessOptions 1000 600).getD
          ((2 + 1) % (getThicknessOptions 1000 600).length) 0))) :=
  ⟨by decide,
   by rw [getThicknessOptions_1000 1000 600 (by norm_num)]; decide,
   (C9_cycle_next 1000 600 10
      (DrawingState.mk [Line.mk (Pt.mk 1 2) (Pt.mk 3 4) 10] [[]] 0 none false
        none none (Pt.mk 0 0) none) 0 2 (Line.mk (Pt.mk 1 2) (Pt.mk 3 4) 10)
      (by decide)
      (by rw [getThicknessOptions_1000 1000 600 (by norm_num)]; decide)).1⟩

/-- C10: cycling a stroke whose thickness is not an entry of the derived
option list: the indexOf lookup yields -1, the stroke's thickness becomes the
first option of the list, and that first option is the smallest entry; the
operation is total. -/
theorem C10_cycle_missing (w h : ℕ) (d : ℚ) (s : DrawingState) (i : ℕ) (line : Line)
    (hget : s.lines.get? i = some line)
    (hnot : line.thickness ∉ getThicknessOptions w h) :
    jsIndexOf (getThicknessOptions w h) line.thickness = -1 ∧
    ((applyDrawOp w h d (DrawOp.changeLineThickness i) s).lines.get? i =
      some (Line.mk line.start line.stop ((getThicknessOptions w h).getD 0 0))) ∧
    (∀ t ∈ getThicknessOptions w h, (getThicknessOptions w h).getD 0 0 ≤ t) := by
  obtain ⟨hi, -⟩ := List.get?_eq_some.mp hget
  have hfnone : (getThicknessOptions w h).findIdx?
      (fun t => decide (t = line.thickness)) = none := by
    rw [List.findIdx?_eq_none_iff]
    intro x hx
    simp only [decide_eq_false_iff_not]
    intro hxeq
    exact hnot (hxeq ▸ hx)
  have hjidx : jsIndexOf (getThicknessOptions w h) line.thickness = -1 := by
    unfold jsIndexOf
    rw [hfnone]
  have hnext : ((jsIndexOf (getThicknessOptions w h) line.thickness + 1) %
      ((getThicknessOptions w h).length : ℤ)).toNat = 0 := by
    rw [hjidx]
    norm_num
  have hred : applyDrawOp w h d (DrawOp.changeLineThickness i) s =
      saveToHistory s (s.lines.set i
        (Line.mk line.start line.stop ((getThicknessOptions w h).getD 0 0))) := by
    simp only [applyDrawOp, hget]
    rw [hnext]
  refine ⟨hjidx, ?_, ?_⟩
  · rw [hred]
    show (s.lines.set i _).get? i = _
    rw [List.get?_set_of_lt _ _ hi]
    simp
  · intro t ht
    have hD0 : (getThicknessOptions w h).getD 0 0 =
        ((jsRound ((2:ℚ)/1000 * ((max w h : ℕ) : ℚ)) : ℤ) : ℚ) := rfl
    simp only [getThicknessOptions, thicknessRatios, List.mem_map] at ht
    obtain ⟨r, hr, rfl⟩ := ht
    rw [hD0]
    have hge : (2:ℚ)/1000 ≤ r := by
      fin_cases hr <;> norm_num
    have hnn : (0:ℚ) ≤ ((max w h : ℕ) : ℚ) := Nat.cast_nonneg _
    have hfl : jsRound ((2:ℚ)/1000 * ((max w h : ℕ) : ℚ)) ≤
        jsRound (r * ((max w h : ℕ) : ℚ)) := by
      unfold jsRound
      apply Int.floor_le_floor
      nlinarith
    exact_mod_cast hfl

/-- Witness for C10: a stroke of thickness 60 with larger dimension 1000: 60
is not in [2,5,10,20,50,100], the lookup gives -1, and cycling yields the
first option. -/
theorem C10_cycle_missing_witness :
    ((DrawingState.mk [Line.mk (Pt.mk 1 2) (Pt.mk 3 4) 60] [[]] 0 none false
        none none (Pt.mk 0 0) none).lines.get? 0 =
      some (Line.mk (Pt.mk 1 2) (Pt.mk 3 4) 60)) ∧
    ((60:ℚ) ∉ getThicknessOptions 1000 600) ∧
    jsIndexOf (getThicknessOptions 1000 600) 60 = -1 :=
  ⟨by decide,
   by rw [getThicknessOptions_1000 1000 600 (by norm_num)]; decide,
   (C10_cycle_missing 1000 600 10
      (DrawingState.mk [Line.mk (Pt.mk 1 2) (Pt.mk 3 4) 60] [[]] 0 none false
        none none (Pt.mk 0 0) none) 0 (Line.mk (Pt.mk 1 2) (Pt.mk 3 4) 60)
      (by decide)
      (by rw [getThicknessOptions_1000 1000 600 (by norm_num)]; decide)).1⟩

/-- Witness for C7: on the empty run the cursor is 0 and undo is a no-op; after
one deleteLine commit the cursor is 1 and undo moves back to snapshot 0. -/
theorem C7_undo_boundary_witness :
    ((runDraw 1000 800 10 []).historyIndex = 0 ∧
      applyDrawOp 1000 800 10 DrawOp.undo (runDraw 1000 800 10 []) =
        runDraw 1000 800 10 []) ∧
    (0 < (runDraw 1000 800 10 [DrawOp.deleteLine 0]).historyIndex ∧
      (applyDrawOp 1000 800 10 DrawOp.undo
          (runDraw 1000 800 10 [DrawOp.deleteLine 0])).historyIndex =
        (runDraw 1000 800 10 [DrawOp.deleteLine 0]).historyIndex - 1) :=
  ⟨⟨by decide, (C7_undo_boundary 1000 800 10 []).1 (by decide)⟩,
   ⟨by decide, ((C7_undo_boundary 1000 800 10 [DrawOp.deleteLine 0]).2.2
      (by decide)).1⟩⟩

end Drawing
end Mesen


namespace Mesen
namespace Touch

/-- The classification block never runs once the gesture type is decided. -/
theorem updateGestureType_decided (s : PinchState)
    (hd : s.gestureType ≠ GestureType.undecided) (dist : ℚ) (c : Pt) :
    updateGestureType s dist c = s := by
  rcases s with ⟨ltd, ip, gt, ipd, ipc, lpc⟩
  cases gt with
  | undecided => exact absurd rfl hd
  | pinch => cases ipd <;> cases ipc <;> rfl
  | pan => cases ipd <;> cases ipc <;> rfl

/-- getPinchScale leaves a decided gesture type untouched. -/
theorem getPinchScale_sticky (s : PinchState)
    (hd : s.gestureType ≠ GestureType.undecided) (n : ℕ) (dist : ℚ) (c : Pt) :
    ((getPinchScale s n dist c).2).gestureType = s.gestureType := by
  unfold getPinchScale
  split
  · split
    · rw [updateGestureType_decided s hd dist c]
      dsimp only
      split <;> rfl
    · rfl
  · rfl

/-- getPinchCenterDelta leaves a decided gesture type untouched. -/
theorem getPinchCenterDelta_sticky (s : PinchState)
    (hd : s.gestureType ≠ GestureType.undecided) (n : ℕ) (dist : ℚ) (c : Pt) :
    ((getPinchCenterDelta s n dist c).2).gestureType = s.gestureType := by
  unfold getPinchCenterDelta
  split
  · split
    · rw [updateGestureType_decided s hd dist c]
      dsimp only
      split <;> rfl
    · rfl
  · rfl

/-- Once decided, the gesture type survives any sequence of session updates. -/
theorem pinch_classification_sticky (s : PinchState)
    (hd : s.gestureType ≠ GestureType.undecided) (moves : List PinchMove) :
    (moves.foldl applyPinchMove s).gestureType = s.gestureType := by
  induction moves generalizing s with
  | nil => rfl
  | cons m rest ih =>
      have hstep : (applyPinchMove s m).gestureType = s.gestureType := by
        cases m with
        | scaleStep n dist c => exact getPinchScale_sticky s hd n dist c
        | deltaStep n dist c => exact getPinchCenterDelta_sticky s hd n dist c
      rw [List.foldl_cons,
        ih (applyPinchMove s m) (by rw [hstep]; exact hd)]
      exact hstep

/-- The concrete two-finger scenario of the spec: fingers 100px apart with
centroid (400,300); after the move they are 150px apart with centroid
(405,300).  getPinchScale classifies the session as a pinch and returns the
ratio 3/2. -/
theorem pinch_scenario_eval :
    getPinchScale (startTouchTwo 100 (Pt.mk 400 300) initPinch) 2 150
      (Pt.mk 405 300) =
      (some (3/2),
        PinchState.mk (some 150) true GestureType.pinch (some 100)
          (some (Pt.mk 400 300)) (some (Pt.mk 400 300))) := by
  have hd2 : dist2 (Pt.mk 405 300) (Pt.mk 400 300) = 25 := by
    norm_num [dist2]
  have hcl : classifyGesture 150 100 (dist2 (Pt.mk 405 300) (Pt.mk 400 300)) =
      GestureType.pinch := by
    rw [hd2]
    unfold classifyGesture PINCH_DISTANCE_THRESHOLD PINCH_CENTER_THRESHOLD
    norm_num
  have hupd : updateGestureType (startTouchTwo 100 (Pt.mk 400 300) initPinch)
      150 (Pt.mk 405 300) =
      PinchState.mk (some 100) true GestureType.pinch (some 100)
        (some (Pt.mk 400 300)) (some (Pt.mk 400 300)) := by
    simp only [startTouchTwo, initPinch, updateGestureType]
    norm_num [hcl]
  unfold getPinchScale
  norm_num [hupd]
  simp only [startTouchTwo, initPinch]
  norm_num

end Touch
end Mesen

namespace Mesen
namespace Touch

/-- C4 counterexample: the spec's own Scenario B input — fingers 100px apart
moving to 150px apart while the centroid moves 5px.  The source classifies the
session as a pinch with ratio 3/2 (the trigger is distance-change > 7 OR
centroid-change > 12), but the claimed rule — both absolute thresholds must be
exceeded — rejects it, because the 5px centroid displacement does not exceed
the 12px centroid threshold.  The claimed "if and only if" is therefore false
at this input. -/
theorem C4_counterexample :
    ((getPinchScale (startTouchTwo 100 (Pt.mk 400 300) initPinch) 2 150
        (Pt.mk 405 300)).2.gestureType = GestureType.pinch) ∧
    ((getPinchScale (startTouchTwo 100 (Pt.mk 400 300) initPinch) 2 150
        (Pt.mk 405 300)).1 = some (3/2)) ∧
    ¬ claimedPinchRule |(150:ℚ) - 100|
        (dist2 (Pt.mk 405 300) (Pt.mk 400 300)) ∧
    ¬ (((getPinchScale (startTouchTwo 100 (Pt.mk 400 300) initPinch) 2 150
          (Pt.mk 405 300)).2.gestureType = GestureType.pinch) ↔
        claimedPinchRule |(150:ℚ) - 100|
          (dist2 (Pt.mk 405 300) (Pt.mk 400 300))) := by
  have hd2 : dist2 (Pt.mk 405 300) (Pt.mk 400 300) = 25 := by
    norm_num [dist2]
  have hrule : ¬ claimedPinchRule |(150:ℚ) - 100|
      (dist2 (Pt.mk 405 300) (Pt.mk 400 300)) := by
    rw [hd2]
    unfold claimedPinchRule PINCH_CENTER_THRESHOLD
    norm_num
  refine ⟨?_, ?_, hrule, ?_⟩
  · rw [pinch_scenario_eval]
  · rw [pinch_scenario_eval]
  · intro hiff
    exact hrule (hiff.mp (by rw [pinch_scenario_eval]))

/-- C4 (amended): while a two-finger session is undecided (with recorded
nonzero initial distance and initial centroid), the classification block
decides as soon as the distance change exceeds its absolute threshold OR the
centroid displacement exceeds its absolute threshold; the decision is pinch
exactly when the distance change also exceeds 1.5 times the centroid
displacement, and pan otherwise; a decided classification never changes for
the rest of the session; and on the concrete scenario (100px to 150px,
centroid moving 5px) the session is classified as a pinch with scale ratio
3/2, not a pan.  Square-root comparisons are embedded squared. -/
theorem C4_pinch_classification (s : PinchState) (d0 : ℚ) (c0 : Pt)
    (currentDistance : ℚ) (currentCenter : Pt)
    (hgt : s.gestureType = GestureType.undecided)
    (hd0 : s.initialPinchDistance = some d0) (hd0ne : d0 ≠ 0)
    (hc0 : s.initialPinchCenter = some c0) :
    ((updateGestureType s currentDistance currentCenter).gestureType =
        GestureType.pinch ↔
      (|currentDistance - d0| > PINCH_DISTANCE_THRESHOLD ∨
        dist2 currentCenter c0 > PINCH_CENTER_THRESHOLD ^ 2) ∧
      |currentDistance - d0| ^ 2 > (3/2) ^ 2 * dist2 currentCenter c0) ∧
    ((updateGestureType s currentDistance currentCenter).gestureType =
        GestureType.pan ↔
      (|currentDistance - d0| > PINCH_DISTANCE_THRESHOLD ∨
        dist2 currentCenter c0 > PINCH_CENTER_THRESHOLD ^ 2) ∧
      ¬ (|currentDistance - d0| ^ 2 > (3/2) ^ 2 * dist2 currentCenter c0)) ∧
    (∀ s2 : PinchState, s2.gestureType ≠ GestureType.undecided →
      ∀ moves : List PinchMove,
        (moves.foldl applyPinchMove s2).gestureType = s2.gestureType) ∧
    ((getPinchScale (startTouchTwo 100 (Pt.mk 400 300) initPinch) 2 150
        (Pt.mk 405 300)).2.gestureType = GestureType.pinch ∧
      (getPinchScale (startTouchTwo 100 (Pt.mk 400 300) initPinch) 2 150
        (Pt.mk 405 300)).1 = some (3/2)) := by
  have hred : updateGestureType s currentDistance currentCenter =
      (match classifyGesture currentDistance d0 (dist2 currentCenter c0) with
       | GestureType.undecided => s
       | t => { s with gestureType := t }) := by
    rcases s with ⟨ltd, ip, gt, ipd, ipc, lpc⟩
    simp only at hgt hd0 hc0
    subst hgt
    subst hd0
    subst hc0
    simp only [updateGestureType, if_pos hd0ne]
  constructor
  · rw [hred]
    unfold classifyGesture
    by_cases htrig : |currentDistance - d0| > PINCH_DISTANCE_THRESHOLD ∨
        dist2 currentCenter c0 > PINCH_CENTER_THRESHOLD ^ 2
    · rw [if_pos htrig]
      by_cases hratio : |currentDistance - d0| ^ 2 >
          (3/2) ^ 2 * dist2 currentCenter c0
      · rw [if_pos hratio]
        exact ⟨fun _ => ⟨htrig, hratio⟩, fun _ => rfl⟩
      · rw [if_neg hratio]
        exact ⟨fun hc => GestureType.noConfusion hc,
          fun hc => absurd hc.2 hratio⟩
    · rw [if_neg htrig]
      refine ⟨fun hc => ?_, fun hc => absurd hc.1 htrig⟩
      rw [hgt] at hc
      exact GestureType.noConfusion hc
  constructor
  · rw [hred]
    unfold classifyGesture
    by_cases htrig : |currentDistance - d0| > PINCH_DISTANCE_THRESHOLD ∨
        dist2 currentCenter c0 > PINCH_CENTER_THRESHOLD ^ 2
    · rw [if_pos htrig]
      by_cases hratio : |currentDistance - d0| ^ 2 >
          (3/2) ^ 2 * dist2 currentCenter c0
      · rw [if_pos hratio]
        exact ⟨fun hc => GestureType.noConfusion hc,
          fun hc => absurd hratio hc.2⟩
      · rw [if_neg hratio]
        exact ⟨fun _ => ⟨htrig, hratio⟩, fun _ => rfl⟩
    · rw [if_neg htrig]
      refine ⟨fun hc => ?_, fun hc => absurd hc.1 htrig⟩
      rw [hgt] at hc
      exact GestureType.noConfusion hc
  refine ⟨fun s2 hd2 moves => pinch_classification_sticky s2 hd2 moves, ?_, ?_⟩
  · rw [pinch_scenario_eval]
  · rw [pinch_scenario_eval]

/-- Witness for C4 (amended) at the spec's Scenario B session. -/
theorem C4_pinch_classification_witness :
    ((startTouchTwo 100 (Pt.mk 400 300) initPinch).gestureType =
        GestureType.undecided) ∧
    ((startTouchTwo 100 (Pt.mk 400 300) initPinch).initialPinchDistance =
        some 100) ∧
    ((100:ℚ) ≠ 0) ∧
    ((updateGestureType (startTouchTwo 100 (Pt.mk 400 300) initPinch) 150
        (Pt.mk 405 300)).gestureType = GestureType.pinch ↔
      (|(150:ℚ) - 100| > PINCH_DISTANCE_THRESHOLD ∨
        dist2 (Pt.mk 405 300) (Pt.mk 400 300) > PINCH_CENTER_THRESHOLD ^ 2) ∧
      |(150:ℚ) - 100| ^ 2 > (3/2) ^ 2 * dist2 (Pt.mk 405 300) (Pt.mk 400 300)) :=
  ⟨rfl, rfl, by norm_num,
   (C4_pinch_classification (startTouchTwo 100 (Pt.mk 400 300) initPinch)
      100 (Pt.mk 400 300) 150 (Pt.mk 405 300) rfl rfl (by norm_num) rfl).1⟩

end Touch
end Mesen

namespace Mesen
namespace Touch

/-- Evaluation of findLineAtPoint on a degenerate one-stroke list: the tap
point coincides with the stroke, so the hit index is 0. -/
theorem findLineAtPoint_deg_eval :
    findLineAtPoint [Line.mk (Pt.mk 5 0) (Pt.mk 5 0) 10] (Pt.mk 5 0) = 0 := by
  unfold findLineAtPoint distanceToLineSegmentSq
  norm_num [List.enum, List.enumFrom, LINE_HIT_EXPANSION]

/-- C5: a tap is recognised as a double tap exactly when a previous tap is
recorded, this tap comes within the 300ms window and within the 30px
tolerance of it (thresholds as in the source: strict comparisons, distance
squared); recognition clears the stored record so an immediately following
tap can never be recognised (the action fires exactly once per pair); and a
quick non-pinch tap that lands on an existing stroke dispatches a thickness
cycle for that stroke and leaves the double-tap record untouched, never
evaluating double-tap zoom. -/
theorem C5_double_tap :
    (∀ (st : DoubleTapState) (now : ℚ) (position : Pt),
      (checkDoubleTap st now position).1 = true ↔
        ∃ prev, st.lastTapPosition = some prev ∧ now - st.lastTapTime < 300 ∧
          dist2 position prev < 30 ^ 2) ∧
    (∀ (st : DoubleTapState) (now : ℚ) (position : Pt),
      (checkDoubleTap st now position).1 = true →
        (checkDoubleTap st now position).2.lastTapPosition = none ∧
        (checkDoubleTap st now position).2.lastTapTime = 0 ∧
        ∀ (now2 : ℚ) (p2 : Pt),
          (checkDoubleTap (checkDoubleTap st now position).2 now2 p2).1 = false) ∧
    (∀ (lines : List Line) (tapClient coords : Pt) (st : DoubleTapState)
        (now : ℚ),
      findLineAtPoint lines coords ≠ -1 →
        handleTapEnd lines true false tapClient coords st now =
          (TapAction.cycleThickness (findLineAtPoint lines coords).toNat, st)) := by
  refine ⟨?_, ?_, ?_⟩
  · intro st now position
    rcases st with ⟨t0, pos0⟩
    cases pos0 with
    | none => simp [checkDoubleTap]
    | some prev =>
        simp only [checkDoubleTap]
        by_cases h1 : now - t0 < 300
        · rw [if_pos h1]
          by_cases h2 : dist2 position prev < 30 ^ 2
          · rw [if_pos h2]
            simp [h1, h2]
          · rw [if_neg h2]
            simp [h2]
        · rw [if_neg h1]
          simp [h1]
  · intro st now position htrue
    rcases st with ⟨t0, pos0⟩
    cases pos0 with
    | none => simp [checkDoubleTap] at htrue
    | some prev =>
        by_cases h1 : now - t0 < 300
        · by_cases h2 : dist2 position prev < 30 ^ 2
          · have hres : checkDoubleTap (DoubleTapState.mk t0 (some prev))
                now position = (true, DoubleTapState.mk 0 none) := by
              simp only [checkDoubleTap]
              rw [if_pos h1, if_pos h2]
            rw [hres]
            exact ⟨rfl, rfl, fun now2 p2 => by simp [checkDoubleTap]⟩
          · have hres : checkDoubleTap (DoubleTapState.mk t0 (some prev))
                now position = (false, DoubleTapState.mk now (some position)) := by
              simp only [checkDoubleTap]
              rw [if_pos h1, if_neg h2]
            rw [hres] at htrue
            exact absurd htrue (by simp)
        · have hres : checkDoubleTap (DoubleTapState.mk t0 (some prev))
              now position = (false, DoubleTapState.mk now (some position)) := by
            simp only [checkDoubleTap]
            rw [if_neg h1]
          rw [hres] at htrue
          exact absurd htrue (by simp)
  · intro lines tapClient coords st now hne
    simp only [handleTapEnd, Bool.not_false, Bool.and_self, if_true]
    rw [if_pos hne]

/-- Witness for C5: a second tap 200ms later and 20px away from the recorded
first tap is recognised, the record is cleared by the recognition, and a quick
tap on a stroke dispatches a thickness cycle with the double-tap record
untouched. -/
theorem C5_double_tap_witness :
    ((checkDoubleTap (DoubleTapState.mk 1000 (some (Pt.mk 100 100))) 1200
        (Pt.mk 120 100)).1 = true) ∧
    ((checkDoubleTap (DoubleTapState.mk 1000 (some (Pt.mk 100 100))) 1200
        (Pt.mk 120 100)).2.lastTapPosition = none) ∧
    (findLineAtPoint [Line.mk (Pt.mk 5 0) (Pt.mk 5 0) 10] (Pt.mk 5 0) ≠ -1) ∧
    (handleTapEnd [Line.mk (Pt.mk 5 0) (Pt.mk 5 0) 10] true false (Pt.mk 5 0)
        (Pt.mk 5 0) initDoubleTap 0 =
      (TapAction.cycleThickness
        (findLineAtPoint [Line.mk (Pt.mk 5 0) (Pt.mk 5 0) 10]
          (Pt.mk 5 0)).toNat, initDoubleTap)) := by
  have h1 : (checkDoubleTap (DoubleTapState.mk 1000 (some (Pt.mk 100 100))) 1200
      (Pt.mk 120 100)).1 = true :=
    (C5_double_tap.1 (DoubleTapState.mk 1000 (some (Pt.mk 100 100))) 1200
        (Pt.mk 120 100)).mpr
      ⟨Pt.mk 100 100, rfl, by norm_num, by norm_num [dist2]⟩
  have hne : findLineAtPoint [Line.mk (Pt.mk 5 0) (Pt.mk 5 0) 10]
      (Pt.mk 5 0) ≠ -1 := by
    rw [findLineAtPoint_deg_eval]
    decide
  exact ⟨h1,
    (C5_double_tap.2.1 (DoubleTapState.mk 1000 (some (Pt.mk 100 100))) 1200
      (Pt.mk 120 100) h1).1,
    hne,
    C5_double_tap.2.2 [Line.mk (Pt.mk 5 0) (Pt.mk 5 0) 10] (Pt.mk 5 0)
      (Pt.mk 5 0) initDoubleTap 0 hne⟩

end Touch
end Mesen
